import Mathlib

/-!
Verification of the tcell-sixel image-geometry, resize-pipeline and
damage-tracking subsystem (package tsixel).

The Go source is shallowly embedded: Go machine integers become Int,
Go integer division (which truncates toward zero) becomes Int.tdiv, and
every division or modulus whose divisor is not a nonzero constant is
modelled in Option, with none marking the input on which the Go code
would panic with a division by zero.  Points and rectangles mirror
image.Point and image.Rectangle from the Go standard library.
-/

namespace TSixel

/-- Go integer division: truncates toward zero, like Int.tdiv. -/
def godiv (a b : Int) : Int := Int.tdiv a b

/-- Go integer remainder: takes the sign of the dividend, like Int.tmod. -/
def gomod (a b : Int) : Int := Int.tmod a b

/-- Point mirrors image.Point: a pair of Go ints. -/
structure Pt where
  x : Int
  y : Int
deriving DecidableEq, Repr

/-- Rect mirrors image.Rectangle: the two corner points. -/
structure Rect where
  min : Pt
  max : Pt
deriving DecidableEq, Repr

/-- Size of a rectangle, as in Go Rectangle.Size: Max.Sub(Min). -/
def Rect.size (r : Rect) : Pt := ⟨r.max.x - r.min.x, r.max.y - r.min.y⟩

/-- Empty reports whether the rectangle contains no points, as in Go
Rectangle.Empty: Min.X >= Max.X or Min.Y >= Max.Y. -/
def Rect.empty (r : Rect) : Bool :=
  decide (r.min.x ≥ r.max.x) || decide (r.min.y ≥ r.max.y)

/-- Go image.ZR, the zero rectangle. -/
def Rect.zero : Rect := ⟨⟨0, 0⟩, ⟨0, 0⟩⟩

/-- Intersect mirrors Go Rectangle.Intersect: clip both corners, and if the
result is empty return the zero rectangle ZR. -/
def Rect.intersect (r s : Rect) : Rect :=
  let mn : Pt := ⟨Max.max r.min.x s.min.x, Max.max r.min.y s.min.y⟩
  let mx : Pt := ⟨Min.min r.max.x s.max.x, Min.min r.max.y s.max.y⟩
  if (Rect.mk mn mx).empty then Rect.zero else ⟨mn, mx⟩

/-- Rectangle equality as used by the Go code (Rectangle.Eq): two rectangles
are equal when they contain the same set of points; in particular all empty
rectangles compare equal. -/
def Rect.goEq (r s : Rect) : Bool :=
  decide (r = s) || (r.empty && s.empty)

/-- ceilDiv from image.go: (a + b - 1) / b, rounding the quotient up for
non-negative operands.  The Go division panics when b = 0, hence Option. -/
def ceilDiv (a b : Int) : Option Int :=
  if b = 0 then none else some (godiv (a + b - 1) b)

/-- SIXELHeight from tsixel.go: the height in pixels of one SIXEL strip. -/
def SIXELHeight : Int := 6

/-- DrawState from tsixel.go, with the screen sizes in cells and in pixels,
the forced-sync flag and the draw timestamp (Go time.Time as integer
nanoseconds, the zero instant being 0).  The Delegate callback field carries
no data relevant to the geometry and is omitted. -/
structure DrawState where
  time : Int
  sync : Bool
  cells : Pt
  pixels : Pt
deriving DecidableEq, Repr

/-- CellSize from tsixel.go: Pixels.X / Cells.X and Pixels.Y / Cells.Y.
Both Go divisions panic when the cell counts are zero, hence Option. -/
def DrawState.cellSize (sz : DrawState) : Option Pt :=
  if sz.cells.x = 0 ∨ sz.cells.y = 0 then none
  else some ⟨godiv sz.pixels.x sz.cells.x, godiv sz.pixels.y sz.cells.y⟩

/-- PtInPixels from tsixel.go: multiply a cell point by the cell size. -/
def DrawState.ptInPixels (sz : DrawState) (pt : Pt) : Option Pt :=
  (sz.cellSize).map fun cell => ⟨pt.x * cell.x, pt.y * cell.y⟩

/-- ptInCells from tsixel.go: ceiling-divide a pixel point by the cell size,
returning the zero point when the cell size is zero. -/
def ptInCellsAux (cell pt : Pt) : Option Pt :=
  if cell.x = 0 ∨ cell.y = 0 then some ⟨0, 0⟩
  else do
    let x ← ceilDiv pt.x cell.x
    let y ← ceilDiv pt.y cell.y
    some ⟨x, y⟩

/-- PtInCells from tsixel.go: converts pixels to cells, rounding up. -/
def DrawState.ptInCells (sz : DrawState) (pt : Pt) : Option Pt :=
  (sz.cellSize).bind fun cell => ptInCellsAux cell pt

/-- Body of RoundPt after the cell size has been computed: round the height
down to a SIXEL multiple, shrink the width proportionally, and if any height
was dropped also round the width down to a cell multiple, shrinking the
height proportionally.  Mirrors DrawState.RoundPt from tsixel.go. -/
def roundPtCell (cell pt : Pt) : Option Pt :=
  if cell.x = 0 ∨ cell.y = 0 then some ⟨0, 0⟩
  else do
    let excessY := gomod pt.y SIXELHeight
    let dx ← ceilDiv (pt.x * excessY) pt.y
    let x1 := pt.x - dx
    let y1 := pt.y - excessY
    if excessY > 0 then do
      let excessX := gomod x1 cell.x
      let dy ← ceilDiv (y1 * excessX) x1
      some ⟨x1 - excessX, y1 - dy⟩
    else
      some ⟨x1, y1⟩

/-- RoundPt from tsixel.go: rounds a pixel point to SIXEL multiples.  The
cell-size computation itself can panic (zero cell counts); after that, a
zero cell size yields the zero point. -/
def DrawState.roundPt (sz : DrawState) (pt : Pt) : Option Pt :=
  (sz.cellSize).bind fun cell => roundPtCell cell pt

/-- RectInPixels from tsixel.go: convert both corners to pixels; when round
is set, replace the max corner by min plus the rounded size, clamped so the
rectangle never inverts. -/
def DrawState.rectInPixels (sz : DrawState) (rect : Rect) (round : Bool) :
    Option Rect := do
  let mn ← sz.ptInPixels rect.min
  let mx ← sz.ptInPixels rect.max
  if round then do
    let size ← sz.roundPt ⟨mx.x - mn.x, mx.y - mn.y⟩
    let mx1 : Pt := ⟨mn.x + size.x, mn.y + size.y⟩
    let mx2 : Pt := ⟨if mx1.x < mn.x then mn.x else mx1.x,
                     if mx1.y < mn.y then mn.y else mx1.y⟩
    some ⟨mn, mx2⟩
  else
    some ⟨mn, mx⟩

/-- RectInCells from tsixel.go: convert both corners from pixels to cells. -/
def DrawState.rectInCells (sz : DrawState) (rect : Rect) : Option Rect := do
  let mn ← sz.ptInCells rect.min
  let mx ← sz.ptInCells rect.max
  some ⟨mn, mx⟩

/-- ImageOpts from image.go.  The Scaler field only selects the scaling
algorithm used inside a worker and never influences geometry, so it is
represented by a flag recording whether a scaler is set. -/
structure ImageOpts where
  hasScaler : Bool
  keepRatio : Bool
  dither : Bool
  noRounding : Bool
deriving DecidableEq, Repr

/-- imageState from image.go: the per-image geometry bookkeeping. -/
structure ImageState where
  opts : ImageOpts
  bounds : Rect
  srcSize : Pt
  imgCells : Pt
  imgPixels : Pt
  sstate : DrawState
deriving DecidableEq, Repr

/-- maxBounds from image.go: the requested bounds intersected with the
screen cell rectangle, inset by (4, 2) when SIXEL rounding is enabled. -/
def ImageState.maxBounds (img : ImageState) : Rect :=
  let offset : Pt := if !img.opts.noRounding then ⟨4, 2⟩ else ⟨0, 0⟩
  Rect.intersect img.bounds
    ⟨⟨0, 0⟩, ⟨img.sstate.cells.x - offset.x, img.sstate.cells.y - offset.y⟩⟩

/-- imageBounds from image.go: the current image rectangle, anchored at the
requested top-left corner with the current size in cells. -/
def ImageState.imageBounds (img : ImageState) : Rect :=
  ⟨img.bounds.min, ⟨img.bounds.min.x + img.imgCells.x, img.bounds.min.y + img.imgCells.y⟩⟩

/-- ptOverlapOneSide from image.go: true if one side of p equals the bound
while the other does not exceed it. -/
def ptOverlapOneSide (p bound : Pt) : Bool :=
  (decide (p.x = bound.x) && decide (p.y ≤ bound.y)) ||
  (decide (p.y = bound.y) && decide (p.x ≤ bound.x))

/-- maxSize from image.go: shrink size to fit within the given maximum while
preserving the aspect ratio with floor division.  Each Go division panics
when its divisor is zero, hence Option. -/
def maxSize (size maxB : Pt) : Option Pt := do
  let original := size
  let s1 ← if original.x > maxB.x then
      if original.x = 0 then none
      else some (⟨maxB.x, godiv (original.y * maxB.x) original.x⟩ : Pt)
    else some size
  if s1.y > maxB.y then
    if original.y = 0 then none
    else some (⟨godiv (original.x * maxB.y) original.y, maxB.y⟩ : Pt)
  else some s1

/-- Target rectangle computed by imageState.updateSize in image.go before
the change comparison: the max bounds converted to pixels (with SIXEL
rounding unless disabled), then clamped by maxSize when KeepRatio is set.
The draw state is installed into the image state first, exactly as the
method body assigns img.sstate before reading it. -/
def ImageState.computeRect (img0 : ImageState) (state : DrawState) : Option Rect := do
  let img := { img0 with sstate := state }
  let rt ← state.rectInPixels img.maxBounds (!img.opts.noRounding)
  if img.opts.keepRatio then do
    let m ← maxSize img.srcSize rt.size
    some ⟨rt.min, ⟨rt.min.x + m.x, rt.min.y + m.y⟩⟩
  else
    some rt

/-- Newly computed target pixel size of imageState.updateSize: the size of
the computed target rectangle. -/
def ImageState.targetSizePx (img : ImageState) (state : DrawState) : Option Pt :=
  (img.computeRect state).map Rect.size

/-- updateSize from image.go: install the draw state, recompute the target
rectangle, and if the new size does not overlap the current pixel size on
one side, store the new pixel and cell sizes.  Returns the updated state
and the changed flag. -/
def ImageState.updateSize (img0 : ImageState) (state : DrawState) :
    Option (ImageState × Bool) := do
  let img := { img0 with sstate := state }
  let rt ← img.computeRect state
  if ptOverlapOneSide img.imgPixels rt.size then
    some (img, false)
  else do
    let cellsRect ← state.rectInCells rt
    some ({ img with imgPixels := rt.size, imgCells := cellsRect.size }, true)

/-- ResizerJob from resizepipe.go, restricted to the data the completion
callbacks read: the target pixel size of the job.  The source raster and the
options never influence the staleness decision. -/
structure ResizerJob where
  newSize : Pt
deriving DecidableEq, Repr

/-- Lock-protected fields of Image (image.go) that the resize completion
callback mutates: the desired pixel size, the cached SIXEL bytes and the
updated flag. -/
structure ImageAsync where
  imgPixels : Pt
  buf : List Nat
  updated : Bool
deriving DecidableEq, Repr

/-- Done callback of Image.Update (image.go): under the image lock, discard
the result if the job's target size is no longer the image's current pixel
size; otherwise store the bytes and mark the image updated. -/
def imageDone (img : ImageAsync) (job : ResizerJob) (out : List Nat) : ImageAsync :=
  if job.newSize ≠ img.imgPixels then img
  else { img with buf := out, updated := true }

/-- Lock-protected per-frame state of Animation (unnamed part, Animation
entity) that its resize completion callback mutates: the frame's encoded
size, the frame's SIXEL bytes, and the animation's redraw flag. -/
structure AnimFrameAsync where
  size : Pt
  sixel : Option (List Nat)
  redraw : Bool
deriving DecidableEq, Repr

/-- Done callback of Animation.Update: under the animation lock, discard the
result if the job's target size no longer equals the captured frame's size;
otherwise store the bytes into the frame and mark the animation for
redrawing. -/
def animationDone (f : AnimFrameAsync) (job : ResizerJob) (out : List Nat) :
    AnimFrameAsync :=
  if job.newSize ≠ f.size then f
  else { f with sixel := some out, redraw := true }

/-- Capabilities and reported sizes of a tcell screen, as probed by
WrapInitScreen via type assertions: direct drawer, draw interceptor adder,
explicit locker and pixel sizer, plus the reported cell and pixel sizes. -/
structure ScreenCaps where
  directDrawer : Bool
  drawInterceptAdder : Bool
  locker : Bool
  pixelSizer : Bool
  size : Pt
  pixelSize : Pt
deriving DecidableEq, Repr

/-- Typed construction errors of tsixel.go. -/
inductive CapError where
  | noDrawInterceptor
  | noPixelDimensions
  | noDirectDrawer
  | noExplicitSync
deriving DecidableEq, Repr

/-- Wrapped screen returned by WrapInitScreen: the initial draw state
snapshot; the image map starts empty and carries no information. -/
structure WrappedScreen where
  cells : Pt
  pixels : Pt
deriving DecidableEq, Repr

/-- WrapInitScreen from tsixel.go: probe the four capabilities in source
order, snapshot the sizes, reject an all-zero pixel size, and otherwise
return the wrapped screen. -/
def wrapInitScreen (s : ScreenCaps) : Except CapError WrappedScreen :=
  if !s.directDrawer then .error .noDirectDrawer
  else if !s.drawInterceptAdder then .error .noDrawInterceptor
  else if !s.locker then .error .noExplicitSync
  else if !s.pixelSizer then .error .noPixelDimensions
  else if s.pixelSize = (⟨0, 0⟩ : Pt) then .error .noPixelDimensions
  else .ok ⟨s.size, s.pixelSize⟩

/-- Frame from tsixel.go: encoded bytes, bounds in cells, redraw flag. -/
structure GoFrame where
  sixel : List Nat
  bounds : Rect
  mustUpdate : Bool
deriving DecidableEq, Repr

/-- drawnImage from tsixel.go paired with the frame its Update method
returns on the current cycle.  Update is an interface method; its result for
this cycle is supplied as data. -/
structure DrawnImage where
  frame : GoFrame
  next : GoFrame
deriving DecidableEq, Repr

/-- Loop body of Screen.beforeDraw for one image: given the accumulated
clear flag, produce the new clear flag and the image's stored frame for the
next cycle.  dirty is the cell buffer's DirtyRegion query over the frame
bounds and hasCellBuffer records whether the screen exposes a cell
buffer. -/
def beforeDrawStep (hasCellBuffer : Bool) (dirty : Rect → Bool) (syncFlag : Bool)
    (clear : Bool) (img : DrawnImage) : Bool × GoFrame :=
  let oldFrame := img.frame
  let newFrame := img.next
  if syncFlag then
    (clear, { newFrame with mustUpdate := true })
  else
    let clear1 := if !clear then !(Rect.goEq newFrame.bounds oldFrame.bounds) else clear
    if !newFrame.mustUpdate && hasCellBuffer then
      (clear1, { newFrame with mustUpdate := dirty newFrame.bounds })
    else
      (clear1, newFrame)

/-- Iteration of beforeDrawStep over the registered images, threading the
clear flag and collecting the stored frames. -/
def beforeDrawFold (hasCellBuffer : Bool) (dirty : Rect → Bool) (syncFlag : Bool)
    (acc : Bool × List GoFrame) (imgs : List DrawnImage) : Bool × List GoFrame :=
  imgs.foldl
    (fun acc img =>
      let r := beforeDrawStep hasCellBuffer dirty syncFlag acc.1 img
      (r.1, acc.2 ++ [r.2]))
    acc

/-- Screen.beforeDraw from tsixel.go: update every registered image, starting
from clear = sync, and return the screen-wide clear flag together with the
stored frames. -/
def beforeDraw (hasCellBuffer : Bool) (dirty : Rect → Bool) (syncFlag : Bool)
    (imgs : List DrawnImage) : Bool × List GoFrame :=
  beforeDrawFold hasCellBuffer dirty syncFlag (syncFlag, []) imgs

/-- Animation and delay data read by Animation.seekFrames: the per-frame
delay table in hundredths of a second, the GIF loop count and the number of
decoded frames (in a well-formed GIF equal to the delay count). -/
structure GoGIF where
  delay : List Int
  loopCount : Int
  imageCount : Nat
deriving DecidableEq, Repr

/-- gifDelayDuration from the Animation entity: time.Second / 100 * delay,
in nanoseconds. -/
def gifDelayDuration (delay : Int) : Int := 1000000000 / 100 * delay

/-- Catch-up loop of Animation.seekFrames, with explicit fuel standing in
for the unbounded Go for-loop.  State is the frame index, the loop counter
and the time anchor.  A wrap past the last frame resets the index to zero;
when that exhausts the loop budget the loop breaks before advancing the
anchor. -/
def seekLoop (g : GoGIF) (now : Int) : Nat → Nat → Int → Int → Nat × Int × Int
  | 0, ix, l, lt => (ix, l, lt)
  | fuel + 1, ix, l, lt =>
    if now < lt + gifDelayDuration (g.delay.getD ix 0) then (ix, l, lt)
    else if ix + 1 ≥ g.imageCount then
      if g.loopCount ≠ 0 then
        if l + 1 > g.loopCount then (0, l + 1, lt)
        else seekLoop g now fuel 0 (l + 1) (lt + gifDelayDuration (g.delay.getD ix 0))
      else seekLoop g now fuel 0 l (lt + gifDelayDuration (g.delay.getD ix 0))
    else seekLoop g now fuel (ix + 1) l (lt + gifDelayDuration (g.delay.getD ix 0))

/-- Animation.seekFrames: do nothing once the loop budget is exhausted;
anchor the clock on the first call (a zero lastTime); then run the catch-up
loop. -/
def seekFrames (g : GoGIF) (fuel : Nat) (ix : Nat) (l lt now : Int) :
    Nat × Int × Int :=
  if g.loopCount ≠ 0 ∧ l > g.loopCount then (ix, l, lt)
  else if lt = 0 then seekLoop g now fuel ix l now
  else seekLoop g now fuel ix l lt

/-! Concrete instances used by counterexamples and witnesses. -/

/-- Animation data of claim C4: delays of 10 hundredths of a second for each
of three frames, looping forever. -/
def gifInfinite : GoGIF := ⟨[10, 10, 10], 0, 3⟩

/-- Animation data of claim C3: three frames of 100 ms each, loop count 1. -/
def gifOnce : GoGIF := ⟨[10, 10, 10], 1, 3⟩

/-- Draw state with cell size 8 by 16 pixels, used for the RoundPt claims. -/
def dsRound : DrawState := ⟨0, false, ⟨100, 100⟩, ⟨800, 1600⟩⟩

/-- Draw state with cell size 8 by 10 pixels. -/
def dsA : DrawState := ⟨0, false, ⟨100, 100⟩, ⟨800, 1000⟩⟩

/-- Draw state with cell size 8 by 12 pixels. -/
def dsB : DrawState := ⟨0, false, ⟨100, 100⟩, ⟨800, 1200⟩⟩

/-- Options with SIXEL rounding disabled and no aspect-ratio clamping. -/
def optsNoRound : ImageOpts := ⟨true, false, false, true⟩

/-- Image state requesting a 2 by 4 cell region of a 500 by 500 source. -/
def imgC5 : ImageState :=
  ⟨optsNoRound, ⟨⟨0, 0⟩, ⟨2, 4⟩⟩, ⟨500, 500⟩, ⟨0, 0⟩, ⟨0, 0⟩, dsA⟩

/-- State of imgC5 after one updateSize against dsA: the target pixel size is
16 by 40 at the 8 by 10 cell size. -/
def imgC5A : ImageState :=
  ⟨optsNoRound, ⟨⟨0, 0⟩, ⟨2, 4⟩⟩, ⟨500, 500⟩, ⟨2, 4⟩, ⟨16, 40⟩, dsA⟩

/-! Unrolling lemmas for the seekFrames catch-up loop. -/

theorem seekLoop_stop (g : GoGIF) (now : Int) (fuel : Nat) (ix : Nat) (l lt : Int)
    (h1 : now < lt + gifDelayDuration (g.delay.getD ix 0)) :
    seekLoop g now (fuel + 1) ix l lt = (ix, l, lt) := by
  rw [seekLoop, if_pos h1]

theorem seekLoop_adv (g : GoGIF) (now : Int) (fuel : Nat) (ix : Nat) (l lt : Int)
    (h1 : ¬ now < lt + gifDelayDuration (g.delay.getD ix 0))
    (h2 : ix + 1 < g.imageCount) :
    seekLoop g now (fuel + 1) ix l lt =
      seekLoop g now fuel (ix + 1) l (lt + gifDelayDuration (g.delay.getD ix 0)) := by
  rw [seekLoop, if_neg h1, if_neg (by omega : ¬ ix + 1 ≥ g.imageCount)]

theorem seekLoop_wrap (g : GoGIF) (now : Int) (fuel : Nat) (ix : Nat) (l lt : Int)
    (h1 : ¬ now < lt + gifDelayDuration (g.delay.getD ix 0))
    (h2 : ix + 1 ≥ g.imageCount) (h3 : g.loopCount ≠ 0) (h4 : ¬ l + 1 > g.loopCount) :
    seekLoop g now (fuel + 1) ix l lt =
      seekLoop g now fuel 0 (l + 1) (lt + gifDelayDuration (g.delay.getD ix 0)) := by
  rw [seekLoop, if_neg h1, if_pos h2, if_pos h3, if_neg h4]

theorem seekLoop_break (g : GoGIF) (now : Int) (fuel : Nat) (ix : Nat) (l lt : Int)
    (h1 : ¬ now < lt + gifDelayDuration (g.delay.getD ix 0))
    (h2 : ix + 1 ≥ g.imageCount) (h3 : g.loopCount ≠ 0) (h4 : l + 1 > g.loopCount) :
    seekLoop g now (fuel + 1) ix l lt = (0, l + 1, lt) := by
  rw [seekLoop, if_neg h1, if_pos h2, if_pos h3, if_pos h4]

/-- C1: for an entity with two resize jobs for sizes A then B, where B is
the entity's currently-desired pixel size, the final cached SIXEL bytes
correspond to size B in either completion order, and a completion whose job
size differs from the current desired size leaves the cached bytes and the
dirty flag unchanged.  Stated for both the Image and the Animation
completion callbacks. -/
theorem c1_stale_results_discarded
    (img : ImageAsync) (fr : AnimFrameAsync) (a b : Pt) (oa ob : List Nat)
    (hab : a ≠ b) (himg : img.imgPixels = b) (hfr : fr.size = b) :
    (imageDone (imageDone img ⟨a⟩ oa) ⟨b⟩ ob).buf = ob ∧
    (imageDone (imageDone img ⟨b⟩ ob) ⟨a⟩ oa).buf = ob ∧
    (∀ (i : ImageAsync) (j : ResizerJob) (o : List Nat),
      j.newSize ≠ i.imgPixels → imageDone i j o = i) ∧
    (animationDone (animationDone fr ⟨a⟩ oa) ⟨b⟩ ob).sixel = some ob ∧
    (animationDone (animationDone fr ⟨b⟩ ob) ⟨a⟩ oa).sixel = some ob ∧
    (∀ (f : AnimFrameAsync) (j : ResizerJob) (o : List Nat),
      j.newSize ≠ f.size → animationDone f j o = f) := by
  refine ⟨?_, ?_, ?_, ?_, ?_, ?_⟩
  · simp [imageDone, himg, hab]
  · simp [imageDone, himg, hab]
  · intro i j o hj
    simp [imageDone, hj]
  · simp [animationDone, hfr, hab]
  · simp [animationDone, hfr, hab]
  · intro f j o hj
    simp [animationDone, hj]

/-- Witness for C1 at concrete sizes 1 by 1 and 2 by 2. -/
theorem c1_stale_results_discarded_witness :
    (⟨1, 1⟩ : Pt) ≠ ⟨2, 2⟩ ∧
    (imageDone (imageDone ⟨⟨2, 2⟩, [], false⟩ ⟨⟨1, 1⟩⟩ [7]) ⟨⟨2, 2⟩⟩ [9]).buf = [9] :=
  ⟨by decide,
    (c1_stale_results_discarded ⟨⟨2, 2⟩, [], false⟩ ⟨⟨2, 2⟩, none, false⟩
      ⟨1, 1⟩ ⟨2, 2⟩ [7] [9] (by decide) rfl rfl).1⟩

/-- C8: WrapInitScreen fails with a distinct typed error for each missing
capability, probed in source order, and additionally fails with the
pixel-dimension error when the reported pixel size is the zero point; a
wrapper is returned exactly when no failure occurs. -/
theorem c8_capability_errors (s : ScreenCaps) :
    (wrapInitScreen s = .error .noDirectDrawer ↔ s.directDrawer = false) ∧
    (wrapInitScreen s = .error .noDrawInterceptor ↔
      s.directDrawer = true ∧ s.drawInterceptAdder = false) ∧
    (wrapInitScreen s = .error .noExplicitSync ↔
      s.directDrawer = true ∧ s.drawInterceptAdder = true ∧ s.locker = false) ∧
    (wrapInitScreen s = .error .noPixelDimensions ↔
      s.directDrawer = true ∧ s.drawInterceptAdder = true ∧ s.locker = true ∧
      (s.pixelSizer = false ∨ s.pixelSize = ⟨0, 0⟩)) ∧
    ((∃ w, wrapInitScreen s = .ok w) ↔
      s.directDrawer = true ∧ s.drawInterceptAdder = true ∧ s.locker = true ∧
      s.pixelSizer = true ∧ s.pixelSize ≠ ⟨0, 0⟩) ∧
    (∀ e, wrapInitScreen s = .error e → ¬ ∃ w, wrapInitScreen s = .ok w) ∧
    ([CapError.noDrawInterceptor, CapError.noPixelDimensions,
      CapError.noDirectDrawer, CapError.noExplicitSync].Pairwise (· ≠ ·)) := by
  obtain ⟨dd, ic, lk, px, sz, pxsz⟩ := s
  cases dd <;> cases ic <;> cases lk <;> cases px <;>
    by_cases hpx : pxsz = (⟨0, 0⟩ : Pt) <;>
      simp_all [wrapInitScreen]

/-- Witness for C8: a screen lacking only the direct drawer capability is
rejected with the direct-drawer error. -/
theorem c8_capability_errors_witness :
    wrapInitScreen ⟨false, true, true, true, ⟨80, 24⟩, ⟨640, 480⟩⟩ =
      .error .noDirectDrawer :=
  (c8_capability_errors ⟨false, true, true, true, ⟨80, 24⟩, ⟨640, 480⟩⟩).1.mpr rfl

/-- C3 counterexample: with loop count 1 and three frames of 100 ms, anchor
the animation at time 1 ns and advance the clock 650 ms, past twice the
300 ms total duration; the frame index is then 0, not 2: on the wrap that
exhausts the loop budget, seekFrames resets the index to the first frame
before breaking. -/
theorem c3_counterexample :
    seekFrames gifOnce 10 0 0 0 1 = (0, 0, 1) ∧
    seekFrames gifOnce 10 0 0 1 650000001 = (0, 2, 500000001) ∧
    (seekFrames gifOnce 10 0 0 1 650000001).1 ≠ 2 := by
  refine ⟨by decide, by decide, by decide⟩

/-- C3 as amended: with loop count 1 and three frames of 100 ms anchored at
time 1 ns, once the clock passes twice the total duration the frame index
is 0 (the code resets to the first frame before breaking, so it freezes on
frame 0, not on the last frame), the loop counter is exhausted at 2, and
every further seekFrames call leaves the state unchanged. -/
theorem c3_freeze_on_first_frame (now : Int) (h : 600000001 < now) :
    seekFrames gifOnce 10 0 0 0 1 = (0, 0, 1) ∧
    seekFrames gifOnce 10 0 0 1 now = (0, 2, 500000001) ∧
    (∀ (fuel : Nat) (ix : Nat) (l lt now2 : Int), l > gifOnce.loopCount →
      seekFrames gifOnce fuel ix l lt now2 = (ix, l, lt)) := by
  refine ⟨by decide, ?_, ?_⟩
  · unfold seekFrames
    rw [if_neg (by norm_num [gifOnce]), if_neg (by norm_num)]
    rw [show (10 : Nat) = 9 + 1 from rfl,
        seekLoop_adv gifOnce now 9 0 0 1
          (by norm_num [gifOnce, gifDelayDuration]; try omega) (by norm_num [gifOnce])]
    show seekLoop gifOnce now (8 + 1) 1 0 100000001 = ((0 : Nat), (2 : Int), (500000001 : Int))
    rw [seekLoop_adv gifOnce now 8 1 0 100000001
          (by norm_num [gifOnce, gifDelayDuration]; try omega) (by norm_num [gifOnce])]
    show seekLoop gifOnce now (7 + 1) 2 0 200000001 = ((0 : Nat), (2 : Int), (500000001 : Int))
    rw [seekLoop_wrap gifOnce now 7 2 0 200000001
          (by norm_num [gifOnce, gifDelayDuration]; try omega) (by norm_num [gifOnce])
          (by norm_num [gifOnce]) (by norm_num [gifOnce])]
    show seekLoop gifOnce now (6 + 1) 0 1 300000001 = ((0 : Nat), (2 : Int), (500000001 : Int))
    rw [seekLoop_adv gifOnce now 6 0 1 300000001
          (by norm_num [gifOnce, gifDelayDuration]; try omega) (by norm_num [gifOnce])]
    show seekLoop gifOnce now (5 + 1) 1 1 400000001 = ((0 : Nat), (2 : Int), (500000001 : Int))
    rw [seekLoop_adv gifOnce now 5 1 1 400000001
          (by norm_num [gifOnce, gifDelayDuration]; try omega) (by norm_num [gifOnce])]
    show seekLoop gifOnce now (4 + 1) 2 1 500000001 = ((0 : Nat), (2 : Int), (500000001 : Int))
    rw [seekLoop_break gifOnce now 4 2 1 500000001
          (by norm_num [gifOnce, gifDelayDuration]; try omega) (by norm_num [gifOnce])
          (by norm_num [gifOnce]) (by norm_num [gifOnce])]
    norm_num
  · intro fuel ix l lt now2 hl
    unfold seekFrames
    rw [if_pos ⟨by norm_num [gifOnce], hl⟩]

/-- C4: with three frames of 100 ms looping forever, a first seekFrames call
at any nonzero instant anchors the animation at frame 0; a call 100 ms later
advances to frame 1; and a call at 250 ms skips over the elapsed frame in
the same call, landing on frame 2 with the anchor at 200 ms. -/
theorem c4_frame_advance (t0 : Int) (h : 0 < t0) :
    seekFrames gifInfinite 10 0 0 0 t0 = (0, 0, t0) ∧
    seekFrames gifInfinite 10 0 0 t0 (t0 + 100000000) = (1, 0, t0 + 100000000) ∧
    seekFrames gifInfinite 10 1 0 (t0 + 100000000) (t0 + 250000000) =
      (2, 0, t0 + 200000000) := by
  refine ⟨?_, ?_, ?_⟩
  · unfold seekFrames
    rw [if_neg (by norm_num [gifInfinite]), if_pos rfl]
    rw [show (10 : Nat) = 9 + 1 from rfl,
        seekLoop_stop gifInfinite t0 9 0 0 t0
          (by norm_num [gifInfinite, gifDelayDuration]; try omega)]
  · unfold seekFrames
    rw [if_neg (by norm_num [gifInfinite]), if_neg (by omega : ¬ t0 = 0)]
    rw [show (10 : Nat) = 9 + 1 from rfl,
        seekLoop_adv gifInfinite (t0 + 100000000) 9 0 0 t0
          (by norm_num [gifInfinite, gifDelayDuration]; try omega)
          (by norm_num [gifInfinite])]
    show seekLoop gifInfinite (t0 + 100000000) (8 + 1) 1 0 (t0 + 100000000) =
      ((1 : Nat), (0 : Int), t0 + 100000000)
    rw [seekLoop_stop gifInfinite (t0 + 100000000) 8 1 0 (t0 + 100000000)
          (by norm_num [gifInfinite, gifDelayDuration]; try omega)]
  · unfold seekFrames
    rw [if_neg (by norm_num [gifInfinite]), if_neg (by omega : ¬ t0 + 100000000 = 0)]
    rw [show (10 : Nat) = 9 + 1 from rfl,
        seekLoop_adv gifInfinite (t0 + 250000000) 9 1 0 (t0 + 100000000)
          (by norm_num [gifInfinite, gifDelayDuration]; try omega)
          (by norm_num [gifInfinite])]
    show seekLoop gifInfinite (t0 + 250000000) (8 + 1) 2 0 (t0 + 100000000 + 100000000) =
      ((2 : Nat), (0 : Int), t0 + 200000000)
    rw [seekLoop_stop gifInfinite (t0 + 250000000) 8 2 0 (t0 + 100000000 + 100000000)
          (by norm_num [gifInfinite, gifDelayDuration]; try omega)]
    norm_num
    try omega

/-- Witness for C4 at the concrete anchor 1 ns. -/
theorem c4_frame_advance_witness :
    (0 : Int) < 1 ∧ seekFrames gifInfinite 10 0 0 0 1 = (0, 0, 1) ∧
    seekFrames gifInfinite 10 0 0 1 100000001 = (1, 0, 100000001) ∧
    seekFrames gifInfinite 10 1 0 100000001 250000001 = (2, 0, 200000001) := by
  have h := c4_frame_advance 1 (by decide)
  exact ⟨by decide, h.1, h.2.1, h.2.2⟩

/-- Witness for C3's amended theorem at the concrete instant 650000001 ns. -/
theorem c3_freeze_on_first_frame_witness :
    (600000001 : Int) < 650000001 ∧
    seekFrames gifOnce 10 0 0 1 650000001 = (0, 2, 500000001) :=
  ⟨by decide, (c3_freeze_on_first_frame 650000001 (by decide)).2.1⟩

/-! Helper lemmas about the updateSize pipeline. -/

theorem ptOverlapOneSide_self (p : Pt) : ptOverlapOneSide p p = true := by
  simp [ptOverlapOneSide]

theorem computeRect_sstate (img : ImageState) (state ds : DrawState) :
    ImageState.computeRect { img with sstate := ds } state = img.computeRect state := rfl

theorem computeRect_only_geometry (opts : ImageOpts) (bounds : Rect) (src : Pt)
    (c1 p1 : Pt) (ss1 : DrawState) (c2 p2 : Pt) (ss2 : DrawState) (state : DrawState) :
    ImageState.computeRect ⟨opts, bounds, src, c1, p1, ss1⟩ state =
      ImageState.computeRect ⟨opts, bounds, src, c2, p2, ss2⟩ state := rfl

theorem ptInCellsAux_isSome (cell pt : Pt) : ∃ q, ptInCellsAux cell pt = some q := by
  unfold ptInCellsAux
  by_cases h : cell.x = 0 ∨ cell.y = 0
  · rw [if_pos h]
    exact ⟨_, rfl⟩
  · push_neg at h
    rw [if_neg (by tauto)]
    simp [ceilDiv, h.1, h.2]

theorem rectInCells_isSome (state : DrawState) (c : Pt) (h : state.cellSize = some c)
    (r : Rect) : ∃ q, state.rectInCells r = some q := by
  unfold DrawState.rectInCells DrawState.ptInCells
  rw [h]
  obtain ⟨q1, hq1⟩ := ptInCellsAux_isSome c r.min
  obtain ⟨q2, hq2⟩ := ptInCellsAux_isSome c r.max
  simp [hq1, hq2]

theorem cellSize_of_computeRect (img : ImageState) (state : DrawState) (rt : Rect)
    (h : img.computeRect state = some rt) : ∃ c, state.cellSize = some c := by
  unfold ImageState.computeRect DrawState.rectInPixels DrawState.ptInPixels at h
  cases hc : state.cellSize with
  | none => rw [hc] at h; simp at h
  | some c => exact ⟨c, rfl⟩

/-- C5 as amended: updateSize reports a change exactly when the newly
computed target pixel size does not overlap the last-computed size in the
sense of ptOverlapOneSide: the comparison is not exact equality on both
dimensions, but equality on one dimension combined with not exceeding the
target on the other. -/
theorem c5_changed_iff_not_overlap (img : ImageState) (state : DrawState) (t : Pt)
    (h : img.targetSizePx state = some t) :
    ∃ img2, img.updateSize state =
      some (img2, !ptOverlapOneSide img.imgPixels t) := by
  obtain ⟨opts, bounds, src, cells, pix, ss⟩ := img
  unfold ImageState.targetSizePx at h
  obtain ⟨rt, hrt, hts⟩ : ∃ rt,
      ImageState.computeRect ⟨opts, bounds, src, cells, pix, ss⟩ state = some rt ∧
        rt.size = t := by
    cases hh : ImageState.computeRect ⟨opts, bounds, src, cells, pix, ss⟩ state with
    | none => rw [hh] at h; simp at h
    | some rt => rw [hh] at h; simp at h; exact ⟨rt, rfl, h⟩
  subst hts
  unfold ImageState.updateSize
  dsimp only
  rw [computeRect_only_geometry opts bounds src cells pix state cells pix ss state, hrt]
  simp only [Option.bind_eq_bind, Option.some_bind]
  by_cases hov : ptOverlapOneSide pix rt.size = true
  · rw [if_pos hov, hov]
    exact ⟨_, rfl⟩
  · obtain ⟨c, hc⟩ := cellSize_of_computeRect _ _ _ hrt
    obtain ⟨cr, hcr⟩ := rectInCells_isSome state c hc rt
    rw [if_neg hov, hcr]
    simp only [Option.bind_eq_bind, Option.some_bind]
    rw [Bool.not_eq_true] at hov
    rw [hov]
    exact ⟨_, rfl⟩

/-- C5 counterexample: after one updateSize against an 8 by 10 cell size the
last-computed target is 16 by 40; against an 8 by 12 cell size the newly
computed target is 16 by 48, which differs from 16 by 40, yet updateSize
returns changed = false because the widths agree and the old height does
not exceed the new one. -/
theorem c5_counterexample :
    imgC5.updateSize dsA = some (imgC5A, true) ∧
    imgC5A.targetSizePx dsB = some ⟨16, 48⟩ ∧
    imgC5A.imgPixels ≠ ⟨16, 48⟩ ∧
    imgC5A.updateSize dsB = some ({ imgC5A with sstate := dsB }, false) := by
  refine ⟨by decide, by decide, by decide, by decide⟩

/-- Witness for C5's amended theorem at the concrete image imgC5. -/
theorem c5_changed_iff_not_overlap_witness :
    imgC5.targetSizePx dsA = some ⟨16, 40⟩ ∧
    ∃ img2, imgC5.updateSize dsA =
      some (img2, !ptOverlapOneSide imgC5.imgPixels ⟨16, 40⟩) :=
  ⟨by decide, c5_changed_iff_not_overlap imgC5 dsA ⟨16, 40⟩ (by decide)⟩

/-- C6: calling updateSize twice in succession with the same draw state and
unchanged requested bounds returns changed = false on the second call,
whenever the first call completes without a division panic. -/
theorem c6_update_size_idempotent (img : ImageState) (state : DrawState)
    (r : ImageState × Bool) (h : img.updateSize state = some r) :
    ∃ img2, r.1.updateSize state = some (img2, false) := by
  obtain ⟨opts, bounds, src, cells, pix, ss⟩ := img
  unfold ImageState.updateSize at h ⊢
  dsimp only at h
  rw [computeRect_only_geometry opts bounds src cells pix state cells pix ss state] at h
  cases hrt : ImageState.computeRect ⟨opts, bounds, src, cells, pix, ss⟩ state with
  | none =>
    rw [hrt] at h
    simp at h
  | some rt =>
    rw [hrt] at h
    simp only [Option.bind_eq_bind, Option.some_bind] at h
    by_cases hov : ptOverlapOneSide pix rt.size = true
    · rw [if_pos hov] at h
      simp only [Option.some.injEq] at h
      subst h
      dsimp only
      rw [computeRect_only_geometry opts bounds src cells pix state cells pix ss state, hrt]
      simp only [Option.bind_eq_bind, Option.some_bind]
      rw [if_pos hov]
      exact ⟨_, rfl⟩
    · rw [if_neg hov] at h
      obtain ⟨c, hc⟩ := cellSize_of_computeRect _ _ _ hrt
      obtain ⟨cr, hcr⟩ := rectInCells_isSome state c hc rt
      rw [hcr] at h
      simp only [Option.bind_eq_bind, Option.some_bind, Option.some.injEq] at h
      subst h
      dsimp only
      rw [computeRect_only_geometry opts bounds src cr.size rt.size state cells pix ss state,
          hrt]
      simp only [Option.bind_eq_bind, Option.some_bind]
      rw [if_pos (ptOverlapOneSide_self rt.size)]
      exact ⟨_, rfl⟩

/-- Witness for C6 at the concrete image imgC5 and draw state dsA. -/
theorem c6_update_size_idempotent_witness :
    imgC5.updateSize dsA = some (imgC5A, true) ∧
    ∃ img2, imgC5A.updateSize dsA = some (img2, false) :=
  ⟨by decide, c6_update_size_idempotent imgC5 dsA (imgC5A, true) (by decide)⟩

/-! Helper lemmas about the beforeDraw damage pass. -/

theorem beforeDrawStep_mono (hcb : Bool) (d : Rect → Bool) (img : DrawnImage) :
    (beforeDrawStep hcb d false true img).1 = true := by
  unfold beforeDrawStep
  simp only [Bool.false_eq_true, if_false, Bool.not_true, Bool.false_and]
  split <;> rfl

theorem beforeDrawStep_diff (hcb : Bool) (d : Rect → Bool) (img : DrawnImage)
    (h : Rect.goEq img.next.bounds img.frame.bounds = false) :
    (beforeDrawStep hcb d false false img).1 = true := by
  unfold beforeDrawStep
  simp only [Bool.false_eq_true, if_false, Bool.not_false, if_true, h]
  split <;> rfl

theorem beforeDrawFold_mono (hcb : Bool) (d : Rect → Bool) (imgs : List DrawnImage) :
    ∀ fs, (beforeDrawFold hcb d false (true, fs) imgs).1 = true := by
  induction imgs with
  | nil => intro fs; rfl
  | cons a as ih =>
    intro fs
    unfold beforeDrawFold
    simp only [List.foldl_cons]
    rw [beforeDrawStep_mono hcb d a]
    exact ih _

theorem beforeDrawFold_mem (hcb : Bool) (d : Rect → Bool) (img : DrawnImage)
    (hdiff : Rect.goEq img.next.bounds img.frame.bounds = false) :
    ∀ (imgs : List DrawnImage) (fs : List GoFrame) (b : Bool), img ∈ imgs →
      (beforeDrawFold hcb d false (b, fs) imgs).1 = true := by
  intro imgs
  induction imgs with
  | nil => intro fs b hmem; cases hmem
  | cons a as ih =>
    intro fs b hmem
    unfold beforeDrawFold
    simp only [List.foldl_cons]
    rcases List.mem_cons.mp hmem with rfl | hmem2
    · cases b
      · rw [beforeDrawStep_diff hcb d img hdiff]
        exact beforeDrawFold_mono hcb d as _
      · rw [beforeDrawStep_mono hcb d img]
        exact beforeDrawFold_mono hcb d as _
    · exact ih _ _ hmem2

/-- C9: on a non-forced-sync cycle, if any registered entity's frame bounds
returned by its update differ from that entity's bounds on the previous
cycle (under Go Rectangle.Eq, which identifies all empty rectangles),
beforeDraw returns the screen-wide clear flag. -/
theorem c9_moved_bounds_force_clear (hcb : Bool) (d : Rect → Bool)
    (imgs : List DrawnImage) (img : DrawnImage) (hmem : img ∈ imgs)
    (hdiff : Rect.goEq img.next.bounds img.frame.bounds = false) :
    (beforeDraw hcb d false imgs).1 = true := by
  unfold beforeDraw
  exact beforeDrawFold_mem hcb d img hdiff imgs [] false hmem

/-- Witness for C9: a single registered entity whose bounds move from the
unit square at the origin to the unit square at (2, 2). -/
theorem c9_moved_bounds_force_clear_witness :
    (⟨⟨[], ⟨⟨0, 0⟩, ⟨1, 1⟩⟩, false⟩, ⟨[], ⟨⟨2, 2⟩, ⟨3, 3⟩⟩, false⟩⟩ : DrawnImage) ∈
      [(⟨⟨[], ⟨⟨0, 0⟩, ⟨1, 1⟩⟩, false⟩, ⟨[], ⟨⟨2, 2⟩, ⟨3, 3⟩⟩, false⟩⟩ : DrawnImage)] ∧
    (beforeDraw true (fun _ => false) false
      [⟨⟨[], ⟨⟨0, 0⟩, ⟨1, 1⟩⟩, false⟩, ⟨[], ⟨⟨2, 2⟩, ⟨3, 3⟩⟩, false⟩⟩]).1 = true :=
  ⟨by decide,
    c9_moved_bounds_force_clear true (fun _ => false)
      [⟨⟨[], ⟨⟨0, 0⟩, ⟨1, 1⟩⟩, false⟩, ⟨[], ⟨⟨2, 2⟩, ⟨3, 3⟩⟩, false⟩⟩]
      ⟨⟨[], ⟨⟨0, 0⟩, ⟨1, 1⟩⟩, false⟩, ⟨[], ⟨⟨2, 2⟩, ⟨3, 3⟩⟩, false⟩⟩
      (by decide) (by decide)⟩

/-! Arithmetic facts about Go division, remainder and ceilDiv. -/

theorem godiv_eq_ediv (a b : Int) (ha : 0 ≤ a) (hb : 0 ≤ b) : godiv a b = a / b :=
  Int.tdiv_eq_ediv ha hb

theorem gomod_nonneg (a b : Int) (ha : 0 ≤ a) : 0 ≤ gomod a b :=
  Int.tmod_nonneg b ha

theorem gomod_le_self (a b : Int) (ha : 0 ≤ a) : gomod a b ≤ a := by
  have h := Int.tdiv_add_tmod a b
  rcases le_or_lt 0 b with hb | hb
  · have h2 : 0 ≤ b * a.tdiv b := mul_nonneg hb (Int.tdiv_nonneg ha hb)
    unfold gomod
    linarith
  · have h1 : a.tdiv b ≤ 0 := Int.tdiv_nonpos ha hb.le
    have h2 : 0 ≤ (-b) * (-(a.tdiv b)) := mul_nonneg (by omega) (by omega)
    rw [neg_mul_neg] at h2
    unfold gomod
    linarith

theorem ceilDiv_spec (a b : Int) (ha : 0 ≤ a) (hb : 0 < b) :
    ∃ q, ceilDiv a b = some q ∧ 0 ≤ q ∧ a ≤ q * b ∧ q * b < a + b := by
  refine ⟨godiv (a + b - 1) b, by rw [ceilDiv, if_neg (by omega)], ?_, ?_, ?_⟩ <;>
    rw [godiv_eq_ediv (a + b - 1) b (by omega) hb.le]
  · exact Int.ediv_nonneg (by omega) hb.le
  · have h1 := Int.ediv_add_emod (a + b - 1) b
    have h2 := Int.emod_nonneg (a + b - 1) (by omega : b ≠ 0)
    have h3 := Int.emod_lt_of_pos (a + b - 1) hb
    have hc : ((a + b - 1) / b) * b = b * ((a + b - 1) / b) := mul_comm _ _
    linarith
  · have h1 := Int.ediv_add_emod (a + b - 1) b
    have h2 := Int.emod_nonneg (a + b - 1) (by omega : b ≠ 0)
    have hc : ((a + b - 1) / b) * b = b * ((a + b - 1) / b) := mul_comm _ _
    linarith

theorem ceil_le (a b q k : Int) (hb : 0 < b) (hup : q * b < a + b) (hk : a ≤ k * b) :
    q ≤ k := by
  have h2 : q * b < (k + 1) * b := by
    have : (k + 1) * b = k * b + b := by ring
    linarith
  have := (mul_lt_mul_right hb).mp h2
  omega

/-- C2 counterexample: at an 8 by 16 cell size, RoundPt on the 100 by 46
point returns 88 by 40, and 40 is not a multiple of the SIXEL strip height:
the cell-width adjustment that follows the SIXEL rounding reduces the height
a second time, off the multiple of 6. -/
theorem c2_counterexample :
    dsRound.cellSize = some ⟨8, 16⟩ ∧
    dsRound.roundPt ⟨100, 46⟩ = some ⟨88, 40⟩ ∧
    gomod 40 SIXELHeight ≠ 0 := by
  refine ⟨by decide, by decide, by decide⟩

/-- C2 as amended: with a non-zero cell size and a non-negative input point,
whenever RoundPt returns a value its height is non-negative and at most the
input height, and when the input height is already a multiple of the SIXEL
strip height the height is returned unchanged (hence a multiple of 6); for
other heights the result can fail to be a multiple of 6. -/
theorem c2_rounded_height (ds : DrawState) (cell pt q : Pt)
    (hcell : ds.cellSize = some cell) (hcx : cell.x ≠ 0) (hcy : cell.y ≠ 0)
    (hx : 0 ≤ pt.x) (hy : 0 ≤ pt.y)
    (hq : ds.roundPt pt = some q) :
    0 ≤ q.y ∧ q.y ≤ pt.y ∧ (gomod pt.y SIXELHeight = 0 → q.y = pt.y) := by
  unfold DrawState.roundPt at hq
  rw [hcell] at hq
  simp only [Option.some_bind] at hq
  unfold roundPtCell at hq
  rw [if_neg (by tauto : ¬ (cell.x = 0 ∨ cell.y = 0))] at hq
  dsimp only at hq
  by_cases hy0 : pt.y = 0
  · rw [hy0] at hq
    simp [ceilDiv] at hq
  · have hypos : 0 < pt.y := by omega
    have he0 : 0 ≤ gomod pt.y SIXELHeight := gomod_nonneg pt.y SIXELHeight hy
    have hele : gomod pt.y SIXELHeight ≤ pt.y := gomod_le_self pt.y SIXELHeight hy
    obtain ⟨dx, hdx, hdx0, hdxa, hdxb⟩ :=
      ceilDiv_spec (pt.x * gomod pt.y SIXELHeight) pt.y (mul_nonneg hx he0) hypos
    rw [hdx] at hq
    simp only [Option.bind_eq_bind, Option.some_bind] at hq
    by_cases hepos : gomod pt.y SIXELHeight > 0
    · rw [if_pos hepos] at hq
      have hdxle : dx ≤ pt.x :=
        ceil_le _ _ _ _ hypos hdxb
          (by
            have := mul_le_mul_of_nonneg_left hele hx
            linarith)
      by_cases hx10 : pt.x - dx = 0
      · rw [hx10] at hq
        simp [ceilDiv] at hq
      · have hx1pos : 0 < pt.x - dx := by omega
        have hex0 : 0 ≤ gomod (pt.x - dx) cell.x :=
          gomod_nonneg (pt.x - dx) cell.x hx1pos.le
        have hexle : gomod (pt.x - dx) cell.x ≤ pt.x - dx :=
          gomod_le_self (pt.x - dx) cell.x hx1pos.le
        obtain ⟨dy, hdy, hdy0, hdya, hdyb⟩ :=
          ceilDiv_spec ((pt.y - gomod pt.y SIXELHeight) * gomod (pt.x - dx) cell.x)
            (pt.x - dx) (mul_nonneg (by omega) hex0) hx1pos
        rw [hdy] at hq
        simp only [Option.bind_eq_bind, Option.some_bind, Option.some.injEq] at hq
        have hdyle : dy ≤ pt.y - gomod pt.y SIXELHeight :=
          ceil_le _ _ _ _ hx1pos hdyb
            (by
              have := mul_le_mul_of_nonneg_left hexle
                (by omega : (0:Int) ≤ pt.y - gomod pt.y SIXELHeight)
              linarith)
        rw [← hq]
        dsimp only
        refine ⟨by omega, by omega, fun h0 => by omega⟩
    · rw [if_neg hepos] at hq
      simp only [Option.some.injEq] at hq
      rw [← hq]
      dsimp only
      have he0' : gomod pt.y SIXELHeight = 0 := by omega
      refine ⟨by omega, by omega, fun h0 => by omega⟩

/-- Witness for C2's amended theorem at the 100 by 48 point (height already
a multiple of 6), where RoundPt leaves the point unchanged. -/
theorem c2_rounded_height_witness :
    dsRound.cellSize = some ⟨8, 16⟩ ∧
    dsRound.roundPt ⟨100, 48⟩ = some ⟨100, 48⟩ ∧
    (0 ≤ (48 : Int) ∧ (48 : Int) ≤ 48 ∧ (gomod 48 SIXELHeight = 0 → (48 : Int) = 48)) :=
  ⟨by decide, by decide,
    c2_rounded_height dsRound ⟨8, 16⟩ ⟨100, 48⟩ ⟨100, 48⟩ (by decide) (by decide)
      (by decide) (by decide) (by decide) (by decide)⟩

/-- C10 counterexample: RoundPt is not total on non-negative inputs: at an
8 by 16 cell size, the input 10 by 0 makes the Go code divide by zero (the
proportional width reduction divides by the input height), so the model
returns none. -/
theorem c10_counterexample :
    dsRound.cellSize = some ⟨8, 16⟩ ∧
    dsRound.roundPt ⟨10, 0⟩ = none := by
  refine ⟨by decide, by decide⟩

/-- C10 as amended: with a non-zero cell size, RoundPt performs no division
by zero and returns non-negative coordinates for every point with
non-negative width and positive height such that either the height is a
multiple of the SIXEL strip height, or width times the rounded-down height
is at least the height (which keeps the reduced width positive for the
second division). -/
theorem c10_roundPt_no_div_by_zero (ds : DrawState) (cell pt : Pt)
    (hcell : ds.cellSize = some cell) (hcx : cell.x ≠ 0) (hcy : cell.y ≠ 0)
    (hx : 0 ≤ pt.x) (hy : 0 < pt.y)
    (hdom : gomod pt.y SIXELHeight = 0 ∨
      pt.y ≤ pt.x * (pt.y - gomod pt.y SIXELHeight)) :
    ∃ q, ds.roundPt pt = some q ∧ 0 ≤ q.x ∧ 0 ≤ q.y := by
  unfold DrawState.roundPt
  rw [hcell]
  simp only [Option.some_bind]
  unfold roundPtCell
  rw [if_neg (by tauto : ¬ (cell.x = 0 ∨ cell.y = 0))]
  dsimp only
  have he0 : 0 ≤ gomod pt.y SIXELHeight := gomod_nonneg pt.y SIXELHeight hy.le
  have hele : gomod pt.y SIXELHeight ≤ pt.y := gomod_le_self pt.y SIXELHeight hy.le
  obtain ⟨dx, hdx, hdx0, hdxa, hdxb⟩ :=
    ceilDiv_spec (pt.x * gomod pt.y SIXELHeight) pt.y (mul_nonneg hx he0) hy
  rw [hdx]
  simp only [Option.bind_eq_bind, Option.some_bind]
  by_cases hepos : gomod pt.y SIXELHeight > 0
  · rw [if_pos hepos]
    have hdom2 : pt.y ≤ pt.x * (pt.y - gomod pt.y SIXELHeight) := by
      rcases hdom with h0 | h2
      · omega
      · exact h2
    have hdxle : dx ≤ pt.x - 1 := by
      refine ceil_le _ _ _ _ hy hdxb ?_
      nlinarith
    have hx1pos : 0 < pt.x - dx := by omega
    have hex0 : 0 ≤ gomod (pt.x - dx) cell.x :=
      gomod_nonneg (pt.x - dx) cell.x hx1pos.le
    have hexle : gomod (pt.x - dx) cell.x ≤ pt.x - dx :=
      gomod_le_self (pt.x - dx) cell.x hx1pos.le
    obtain ⟨dy, hdy, hdy0, hdya, hdyb⟩ :=
      ceilDiv_spec ((pt.y - gomod pt.y SIXELHeight) * gomod (pt.x - dx) cell.x)
        (pt.x - dx) (mul_nonneg (by omega) hex0) hx1pos
    have hdyle : dy ≤ pt.y - gomod pt.y SIXELHeight := by
      refine ceil_le _ _ _ _ hx1pos hdyb ?_
      have := mul_le_mul_of_nonneg_left hexle
        (by omega : (0:Int) ≤ pt.y - gomod pt.y SIXELHeight)
      linarith
    refine ⟨⟨pt.x - dx - gomod (pt.x - dx) cell.x,
             pt.y - gomod pt.y SIXELHeight - dy⟩, ?_, by dsimp only; omega,
             by dsimp only; omega⟩
    rw [hdy]
    simp only [Option.bind_eq_bind, Option.some_bind]
  · rw [if_neg hepos]
    have he0' : gomod pt.y SIXELHeight = 0 := by omega
    rw [he0', mul_zero] at hdxa hdxb
    have hdxlt : dx < 1 := by
      have h2 : dx * pt.y < 1 * pt.y := by linarith
      exact (mul_lt_mul_right hy).mp h2
    exact ⟨⟨pt.x - dx, pt.y - gomod pt.y SIXELHeight⟩, rfl, by dsimp only; omega,
           by dsimp only; omega⟩

/-- Witness for C10's amended theorem at the 100 by 46 point. -/
theorem c10_roundPt_no_div_by_zero_witness :
    dsRound.cellSize = some ⟨8, 16⟩ ∧
    ∃ q, dsRound.roundPt ⟨100, 46⟩ = some q ∧ 0 ≤ q.x ∧ 0 ≤ q.y :=
  ⟨by decide,
    c10_roundPt_no_div_by_zero dsRound ⟨8, 16⟩ ⟨100, 46⟩ (by decide) (by decide)
      (by decide) (by decide) (by decide) (by decide)⟩

/-- C7: for non-negative source size S and bounding box B, the aspect-fit
function returns a size R that fits within B, whose cross ratio differs from
S's by less than one rounding unit (the absolute difference of the cross
products is at most the larger dimension of S), and which equals S whenever
S already fits within B. -/
theorem c7_aspect_fit (S B : Pt) (hsx : 0 ≤ S.x) (hsy : 0 ≤ S.y)
    (hbx : 0 ≤ B.x) (hby : 0 ≤ B.y) :
    ∃ R, maxSize S B = some R ∧ R.x ≤ B.x ∧ R.y ≤ B.y ∧
      |R.x * S.y - R.y * S.x| ≤ Max.max S.x S.y ∧
      ((S.x ≤ B.x ∧ S.y ≤ B.y) → R = S) := by
  unfold maxSize
  dsimp only
  by_cases hb1 : S.x > B.x
  · have hsx1 : 0 < S.x := by omega
    rw [if_pos hb1, if_neg (by omega : ¬ S.x = 0),
        godiv_eq_ediv (S.y * B.x) S.x (mul_nonneg hsy hbx) hsx1.le]
    have hd1 := Int.ediv_add_emod (S.y * B.x) S.x
    have hr1a := Int.emod_nonneg (S.y * B.x) (by omega : S.x ≠ 0)
    have hr1b := Int.emod_lt_of_pos (S.y * B.x) hsx1
    simp only [Option.bind_eq_bind, Option.some_bind]
    dsimp only
    by_cases hb2 : S.y * B.x / S.x > B.y
    · have hsy1 : 0 < S.y := by
        rcases (by omega : S.y = 0 ∨ 0 < S.y) with h0 | h
        · rw [h0, zero_mul, Int.zero_ediv] at hb2
          omega
        · exact h
      rw [if_pos hb2, if_neg (by omega : ¬ S.y = 0),
          godiv_eq_ediv (S.x * B.y) S.y (mul_nonneg hsx hby) hsy1.le]
      have hd2 := Int.ediv_add_emod (S.x * B.y) S.y
      have hr2a := Int.emod_nonneg (S.x * B.y) (by omega : S.y ≠ 0)
      have hr2b := Int.emod_lt_of_pos (S.x * B.y) hsy1
      refine ⟨⟨S.x * B.y / S.y, B.y⟩, rfl, ?_, le_refl _, ?_, ?_⟩
      · have hq1lb : B.y + 1 ≤ S.y * B.x / S.x := by omega
        have h3 : (B.y + 1) * S.x ≤ S.y * B.x :=
          (Int.le_ediv_iff_mul_le hsx1).mp hq1lb
        have h4 : S.x * B.y < B.x * S.y := by nlinarith
        exact ((Int.ediv_lt_iff_lt_mul hsy1).mpr h4).le
      · dsimp only
        have hcm : S.x * B.y / S.y * S.y = S.y * (S.x * B.y / S.y) := mul_comm _ _
        refine abs_le.mpr ⟨?_, ?_⟩
        · have := le_max_right S.x S.y
          linarith
        · have h0 : 0 ≤ Max.max S.x S.y := le_trans hsx (le_max_left _ _)
          linarith
      · intro h
        exact absurd h.1 (by omega)
    · rw [if_neg hb2]
      refine ⟨⟨B.x, S.y * B.x / S.x⟩, rfl, le_refl _, by dsimp only; omega, ?_, ?_⟩
      · dsimp only
        have hcm : S.y * B.x / S.x * S.x = S.x * (S.y * B.x / S.x) := mul_comm _ _
        refine abs_le.mpr ⟨?_, ?_⟩
        · have h0 : 0 ≤ Max.max S.x S.y := le_trans hsx (le_max_left _ _)
          linarith
        · have := le_max_left S.x S.y
          linarith
      · intro h
        exact absurd h.1 (by omega)
  · rw [if_neg hb1]
    simp only [Option.bind_eq_bind, Option.some_bind]
    by_cases hb2 : S.y > B.y
    · have hsy1 : 0 < S.y := by omega
      rw [if_pos hb2, if_neg (by omega : ¬ S.y = 0),
          godiv_eq_ediv (S.x * B.y) S.y (mul_nonneg hsx hby) hsy1.le]
      have hd2 := Int.ediv_add_emod (S.x * B.y) S.y
      have hr2a := Int.emod_nonneg (S.x * B.y) (by omega : S.y ≠ 0)
      have hr2b := Int.emod_lt_of_pos (S.x * B.y) hsy1
      refine ⟨⟨S.x * B.y / S.y, B.y⟩, rfl, ?_, le_refl _, ?_, ?_⟩
      · have h3 : S.x * B.y ≤ S.x * S.y := mul_le_mul_of_nonneg_left hb2.le hsx
        have h4 : S.x * B.y / S.y ≤ S.x * S.y / S.y := Int.ediv_le_ediv hsy1 h3
        rw [Int.mul_ediv_cancel S.x (by omega : S.y ≠ 0)] at h4
        dsimp only
        omega
      · dsimp only
        have hcm : S.x * B.y / S.y * S.y = S.y * (S.x * B.y / S.y) := mul_comm _ _
        refine abs_le.mpr ⟨?_, ?_⟩
        · have := le_max_right S.x S.y
          linarith
        · have h0 : 0 ≤ Max.max S.x S.y := le_trans hsx (le_max_left _ _)
          linarith
      · intro h
        exact absurd h.2 (by omega)
    · rw [if_neg hb2]
      refine ⟨S, rfl, by omega, by omega, ?_, fun h => rfl⟩
      rw [mul_comm S.x S.y, sub_self, abs_zero]
      exact le_trans hsx (le_max_left _ _)

/-- Witness for C7 at the 500 by 500 source inside a 100 by 50 box. -/
theorem c7_aspect_fit_witness :
    (0 ≤ (500 : Int) ∧ 0 ≤ (100 : Int) ∧ 0 ≤ (50 : Int)) ∧
    ∃ R, maxSize ⟨500, 500⟩ ⟨100, 50⟩ = some R ∧
      R.x ≤ (⟨100, 50⟩ : Pt).x ∧ R.y ≤ (⟨100, 50⟩ : Pt).y ∧
      |R.x * (⟨500, 500⟩ : Pt).y - R.y * (⟨500, 500⟩ : Pt).x| ≤
        Max.max (⟨500, 500⟩ : Pt).x (⟨500, 500⟩ : Pt).y ∧
      (((⟨500, 500⟩ : Pt).x ≤ (⟨100, 50⟩ : Pt).x ∧
        (⟨500, 500⟩ : Pt).y ≤ (⟨100, 50⟩ : Pt).y) → R = ⟨500, 500⟩) :=
  ⟨by decide,
    c7_aspect_fit ⟨500, 500⟩ ⟨100, 50⟩ (by decide) (by decide) (by decide) (by decide)⟩

end TSixel
